import Mathlib

/-!
Verification of the sheetmusic repository MIDI codec.

Decoder: shallow embedding of src/MidiParser.js (constructor guard,
header parsing, track/event loop, running status, meta events, note
duration pairing).  Encoder: shallow embedding of the file-export
routines in src/unnamed/part_001 (pitch-bend variant) and
src/unnamed/part_000 (plain variant).

Modelling notes, stated once here:
- A JS `Uint8Array` is a `List Nat` of values < 256.  Reading past the
  end of a `Uint8Array` yields `undefined`; every such read in the code
  flows into a bitwise operation (`& 0x7F`, `& 0x80`) which coerces
  `undefined` to 0, so out-of-range reads are modelled by `List.getD _ _ 0`.
- JS `<<`, `>>`, `&` work on 32-bit integers.  Every quantity the claims
  exercise stays below 2^31, where plain `Nat`/`Int` arithmetic with an
  explicit `% 2^32` on the VLQ accumulator shift agrees with JS.
- JS `Array.prototype.sort` (ES2019+) is stable and, for a consistent
  comparator inducing a total preorder, its output is the unique stable
  sorted permutation; `List.insertionSort` with the non-strict comparator
  relation is exactly that, so it models the source sort.
- Quantities produced by IEEE-754 float computations in the encoder
  (Math.round of beat-to-tick products, the nearest-MIDI-note and
  pitch-bend math on frequencies) enter the embedding as the integer
  fields of `CircleTicks` / `CircleTicks0`; the filter, clamping,
  channel assignment, event construction, sorting and byte emission are
  translated from the source.
-/

/-- One decoded event record, mirroring the heterogeneous JS objects
pushed by `_pushEvent`; absent JS properties are `none`. -/
structure RawEvent where
  tick : Nat
  type : Nat
  channel : Nat
  note : Option Nat := none
  velocity : Option Nat := none
  value : Option Nat := none
  controller : Option Nat := none
  program : Option Nat := none
  duration : Option Int := none
deriving DecidableEq

/-- A tempo entry, from `_parseSetTempo`: `bpm = 60000000 / tempo`
(JS float division modelled exactly on rationals). -/
structure TempoEvent where
  tick : Nat
  bpm : ℚ
deriving DecidableEq

/-- The mutable parser object of `MidiParser.js`: byte buffer, cursor,
accumulated events and tempi, running-status byte and header fields. -/
structure PState where
  data : List Nat
  off : Nat
  events : List RawEvent
  tempo : List TempoEvent
  lastEventType : Nat
  format : Nat
  totalTracks : Nat
  ticksPerBeat : Nat
deriving DecidableEq

/-- Byte access `this._data[i]`; out-of-range reads act as 0 (see header). -/
def byteAt (data : List Nat) (i : Nat) : Nat :=
  data.getD i 0

/-- Value computed by `_readNumber(len)`: big-endian accumulation
`n = (n << 8) + byte`.  All uses stay below 2^31, where the JS 32-bit
shift agrees with `Nat` arithmetic. -/
def readNumberV (data : List Nat) (off len : Nat) : Nat :=
  (List.range len).foldl (fun n i => n * 256 + byteAt data (off + i)) 0

/-- `_readNumber(len)`: value plus cursor advanced by `len`. -/
def readNumber (s : PState) (len : Nat) : Nat × PState :=
  (readNumberV s.data s.off len, { s with off := s.off + len })

/-- `_readString(len)` modelled on raw bytes (`data.slice(off, off+len)`);
the ASCII tags the parser compares against are byte lists here. -/
def readStringBytes (s : PState) (len : Nat) : List Nat × PState :=
  ((s.data.drop s.off).take len, { s with off := s.off + len })

/-- The JS `n << 7` step of the VLQ accumulator, a 32-bit operation. -/
def jsShl7 (n : Nat) : Nat :=
  n * 128 % 2 ^ 32

/-- Core of `_readVariableLengthNumber`: a do-while loop that reads one
byte, accumulates `(n << 7) + (v & 0x7F)` and continues while `v & 0x80`
is set.  Input is the buffer suffix from the cursor; result is the value
and the number of bytes consumed (at least one, also past the end). -/
def readVLQFrom : List Nat → Nat → Nat × Nat
  | [], n => (jsShl7 n, 1)
  | v :: rest, n =>
    let n' := jsShl7 n + v % 128
    if v &&& 128 ≠ 0 then
      let p := readVLQFrom rest n'
      (p.1, p.2 + 1)
    else
      (n', 1)

/-- `_readVariableLengthNumber()` on the parser state. -/
def readVLQ (s : PState) : Nat × PState :=
  let p := readVLQFrom (s.data.drop s.off) 0
  (p.1, { s with off := s.off + p.2 })

/-- The `data` object handed to `_pushEvent` by the per-event parsers. -/
structure EvData where
  channel : Nat
  note : Option Nat := none
  velocity : Option Nat := none
  value : Option Nat := none
  controller : Option Nat := none
  program : Option Nat := none
deriving DecidableEq

/-- The event object built by `_pushEvent` (`{tick, type, ...data}`). -/
def evOf (tick ty : Nat) (d : EvData) : RawEvent :=
  { tick := tick, type := ty, channel := d.channel, note := d.note,
    velocity := d.velocity, value := d.value, controller := d.controller,
    program := d.program, duration := none }

/-- The backward scan of `_pushEvent` for a note-off: find the most
recent event with `type === 9`, same channel, same note and `duration`
still `undefined`; set its duration to `tick - event.tick` and stop.
`none` when no such event exists.  Recursion prefers a match in the
tail, i.e. the latest match, exactly as the backward JS loop does. -/
def updateLastOpen (tick : Nat) (d : EvData) : List RawEvent → Option (List RawEvent)
  | [] => none
  | e :: rest =>
    match updateLastOpen tick d rest with
    | some rest' => some (e :: rest')
    | none =>
      if e.type = 9 ∧ e.channel = d.channel ∧ e.note = d.note ∧ e.duration = none then
        some ({ e with duration := some ((tick : Int) - (e.tick : Int)) } :: rest)
      else
        none

/-- `_pushEvent(tick, type, data)`: a note-off first tries to close the
most recent open matching note-on; otherwise (and for all other types)
the event is appended. -/
def pushEvent (events : List RawEvent) (tick ty : Nat) (d : EvData) : List RawEvent :=
  if ty = 8 then
    match updateLastOpen tick d events with
    | some l => l
    | none => events ++ [evOf tick 8 d]
  else
    events ++ [evOf tick ty d]

/-- `_parseNoteOff(tick, channel)`: reads a note byte and a velocity
byte, then pushes a type-8 event. -/
def parseNoteOff (s : PState) (tick ch : Nat) : PState :=
  let p1 := readNumber s 1
  let p2 := readNumber p1.2 1
  let d : EvData := { channel := ch, note := some p1.1, velocity := some p2.1 }
  { p2.2 with events := pushEvent p2.2.events tick 8 d }

/-- `_parseNoteOn(tick, channel)`: reads note and velocity; on velocity
0 it calls `_parseNoteOff` — which, as in the source, ignores the extra
arguments and reads two further bytes from the stream. -/
def parseNoteOn (s : PState) (tick ch : Nat) : PState :=
  let p1 := readNumber s 1
  let p2 := readNumber p1.2 1
  if p2.1 = 0 then
    parseNoteOff p2.2 tick ch
  else
    let d : EvData := { channel := ch, note := some p1.1, velocity := some p2.1 }
    { p2.2 with events := pushEvent p2.2.events tick 9 d }

/-- `_parseNoteAftertouch(tick, channel)`. -/
def parseNoteAftertouch (s : PState) (tick ch : Nat) : PState :=
  let p1 := readNumber s 1
  let p2 := readNumber p1.2 1
  let d : EvData := { channel := ch, note := some p1.1, value := some p2.1 }
  { p2.2 with events := pushEvent p2.2.events tick 10 d }

/-- `_parseController(tick, channel)`. -/
def parseController (s : PState) (tick ch : Nat) : PState :=
  let p1 := readNumber s 1
  let p2 := readNumber p1.2 1
  let d : EvData := { channel := ch, controller := some p1.1, value := some p2.1 }
  { p2.2 with events := pushEvent p2.2.events tick 11 d }

/-- `_parseProgramChange(tick, channel)`. -/
def parseProgramChange (s : PState) (tick ch : Nat) : PState :=
  let p1 := readNumber s 1
  let d : EvData := { channel := ch, program := some p1.1 }
  { p1.2 with events := pushEvent p1.2.events tick 12 d }

/-- `_parseChannelAftertouch(tick, channel)`. -/
def parseChannelAftertouch (s : PState) (tick ch : Nat) : PState :=
  let p1 := readNumber s 1
  let d : EvData := { channel := ch, value := some p1.1 }
  { p1.2 with events := pushEvent p1.2.events tick 13 d }

/-- `_parsePitchBend(tick, channel)`. -/
def parsePitchBend (s : PState) (tick ch : Nat) : PState :=
  let p1 := readNumber s 2
  let d : EvData := { channel := ch, value := some p1.1 }
  { p1.2 with events := pushEvent p1.2.events tick 14 d }

/-- `_parseMetaEvent(tick, eventType)`: reads the meta type byte and the
VLQ payload length, then dispatches.  The JS switch over distinct
constants is rendered as an if-chain.  Text-like payloads are read by
length; End-of-Track reads nothing; SMPTE offset, time signature and key
signature read fixed field counts (5, 4, 2 one-byte reads); Set Tempo
reads `len` bytes and appends a tempo entry; unknown types skip `len`
bytes. -/
def parseMetaEvent (s : PState) (tick : Nat) : PState :=
  let p1 := readNumber s 1
  let mtype := p1.1
  let p2 := readVLQ p1.2
  let len := p2.1
  let s2 := p2.2
  if mtype = 0x00 then (readNumber s2 len).2
  else if mtype = 0x01 then (readStringBytes s2 len).2
  else if mtype = 0x02 then (readStringBytes s2 len).2
  else if mtype = 0x03 then (readStringBytes s2 len).2
  else if mtype = 0x04 then (readStringBytes s2 len).2
  else if mtype = 0x05 then (readStringBytes s2 len).2
  else if mtype = 0x06 then (readStringBytes s2 len).2
  else if mtype = 0x07 then (readStringBytes s2 len).2
  else if mtype = 0x20 then (readNumber s2 len).2
  else if mtype = 0x2F then s2
  else if mtype = 0x51 then
    let p3 := readNumber s2 len
    { p3.2 with tempo := p3.2.tempo ++ [({ tick := tick, bpm := 60000000 / (p3.1 : ℚ) } : TempoEvent)] }
  else if mtype = 0x54 then
    (readNumber (readNumber (readNumber (readNumber (readNumber s2 1).2 1).2 1).2 1).2 1).2
  else if mtype = 0x58 then
    (readNumber (readNumber (readNumber (readNumber s2 1).2 1).2 1).2 1).2
  else if mtype = 0x59 then
    (readNumber (readNumber s2 1).2 1).2
  else if mtype = 0x7F then (readStringBytes s2 len).2
  else { s2 with off := s2.off + len }

/-- One iteration body of the track loop after the delta-time: read the
status byte, apply running status (data byte: reuse `_lastEventType` and
rewind the cursor), dispatch on the top nibble, then record the status
byte as the new running status.  An unknown nibble aborts the decode. -/
def parseEvent (s : PState) (tick : Nat) : Except String PState :=
  let p := readNumber s 1
  let et0 := p.1
  let s1 := p.2
  let eventType := if et0 < 0x80 then s1.lastEventType else et0
  let s2 := if et0 < 0x80 then { s1 with off := s1.off - 1 } else s1
  let hi := eventType &&& 0xF0
  let ch := eventType &&& 0x0F
  if hi = 0x80 then .ok ({ parseNoteOff s2 tick ch with lastEventType := eventType })
  else if hi = 0x90 then .ok ({ parseNoteOn s2 tick ch with lastEventType := eventType })
  else if hi = 0xA0 then .ok ({ parseNoteAftertouch s2 tick ch with lastEventType := eventType })
  else if hi = 0xB0 then .ok ({ parseController s2 tick ch with lastEventType := eventType })
  else if hi = 0xC0 then .ok ({ parseProgramChange s2 tick ch with lastEventType := eventType })
  else if hi = 0xD0 then .ok ({ parseChannelAftertouch s2 tick ch with lastEventType := eventType })
  else if hi = 0xE0 then .ok ({ parsePitchBend s2 tick ch with lastEventType := eventType })
  else if hi = 0xF0 then .ok ({ parseMetaEvent s2 tick with lastEventType := eventType })
  else .error "MidiParser: Unknown event type"

/-- The per-track while loop (`while (this._dataOffset < trackEnd)`),
with an explicit fuel argument for Lean termination.  Each iteration
consumes at least the one byte of its delta VLQ, so `trackLength + 1`
fuel is always enough; the fuel-exhaustion branch is unreachable on the
inputs considered. -/
def parseTrackLoop (s : PState) (trackEnd tick : Nat) : Nat → Except String PState
  | 0 => .error "MidiParser: out of fuel"
  | fuel + 1 =>
    if s.off < trackEnd then
      let p := readVLQ s
      let tick' := tick + p.1
      match parseEvent p.2 tick' with
      | .error e => .error e
      | .ok s2 => parseTrackLoop s2 trackEnd tick' fuel
    else
      .ok s

/-- ASCII bytes of the header chunk tag. -/
def mthdTag : List Nat := [77, 84, 104, 100]

/-- ASCII bytes of the track chunk tag. -/
def mtrkTag : List Nat := [77, 84, 114, 107]

/-- The for-loop of `_parseTracks`, one call per remaining track:
validate the tag, read the chunk length, run the event loop over exactly
that byte range with the tick counter reset to 0. -/
def parseTracksGo : Nat → PState → Except String PState
  | 0, s => .ok s
  | n + 1, s =>
    let p1 := readStringBytes s 4
    if p1.1 ≠ mtrkTag then .error "MidiParser: Wrong track header."
    else
      let p2 := readNumber p1.2 4
      match parseTrackLoop p2.2 (p2.2.off + p2.1) 0 (p2.1 + 1) with
      | .error e => .error e
      | .ok s2 => parseTracksGo n s2

/-- `_parseHeader`: tag, length 6, format, track count, division; an
SMPTE-flagged division (`ppqn & 0x8000`) forces `ticksPerBeat` to 0. -/
def parseHeader (s : PState) : Except String PState :=
  let p1 := readStringBytes s 4
  if p1.1 ≠ mthdTag then .error "MidiParser: Wrong MIDI file format."
  else
    let p2 := readNumber p1.2 4
    if p2.1 ≠ 6 then .error "MidiParser: Wrong header length."
    else
      let p3 := readNumber p2.2 2
      let p4 := readNumber p3.2 2
      let p5 := readNumber p4.2 2
      let tpb := if p5.1 &&& 0x8000 ≠ 0 then 0 else p5.1
      .ok ({ p5.2 with format := p3.1, totalTracks := p4.1, ticksPerBeat := tpb })

/-- Fresh parser state over a buffer (the constructor's field set-up). -/
def initState (data : List Nat) : PState :=
  { data := data, off := 0, events := [], tempo := [], lastEventType := 0,
    format := 0, totalTracks := 0, ticksPerBeat := 0 }

/-- The constructor's up-front guard (buffer at least 18 bytes and
leading MThd tag) followed by `_parseHeader`. -/
def decodeHeaderPhase (data : List Nat) : Except String PState :=
  if data.length < 18 ∨ data.take 4 ≠ mthdTag then
    .error "MidiParser: Wrong MIDI file format."
  else
    parseHeader (initState data)

/-- The whole decode: guard, header, then all tracks.  An error carries
no partial state. -/
def decode (data : List Nat) : Except String PState :=
  match decodeHeaderPhase data with
  | .error e => .error e
  | .ok s => parseTracksGo s.totalTracks s

/-- Events of a successful decode, for concrete evaluations. -/
def decodeEvents (data : List Nat) : Option (List RawEvent) :=
  (decode data).toOption.map (·.events)

/-! Encoder embedding: src/unnamed/part_001 `exportToMidiFile` (pitch-bend
variant) and src/unnamed/part_000 `exportToMidiFile` (plain variant). -/

/-- `write32(n)` from the export routines. -/
def write32 (n : Nat) : List Nat :=
  [n >>> 24 &&& 255, n >>> 16 &&& 255, n >>> 8 &&& 255, n &&& 255]

/-- `write16(n)` from the export routines. -/
def write16 (n : Nat) : List Nat :=
  [n >>> 8 &&& 255, n &&& 255]

/-- Loop of `writeVariableLength`: while `n > 0`, prepend
`(n & 0x7F) | 0x80` and shift right by 7.  `Int.emod`/`Int.fdiv` are the
two's-complement low bits and the arithmetic shift of JS for inputs
below 2^31 in magnitude. -/
def wvlGo (m : Int) (buf : List Nat) : List Nat :=
  if 0 < m then wvlGo (m.fdiv 128) (((m % 128).toNat + 128) :: buf) else buf
termination_by m.toNat
decreasing_by
  have h2 : (0 : Int) < m := by assumption
  have h3 : m.fdiv 128 = ((m.toNat / 128 : Nat) : Int) := by
    conv_lhs => rw [← Int.toNat_of_nonneg (le_of_lt h2)]
    exact (Int.ofNat_fdiv m.toNat 128).symm
  rw [h3]
  simp only [Int.toNat_ofNat]
  exact Nat.div_lt_self (by omega) (by norm_num)

/-- `writeVariableLength(n)`: first byte `n & 0x7F`, then the loop. -/
def writeVariableLength (n : Int) : List Nat :=
  wvlGo (n.fdiv 128) [(n % 128).toNat]

/-- Event kinds of the export event list (`'bend'`, `'on'`, `'off'`). -/
inductive EvKind
  | bend
  | on
  | off
deriving DecidableEq

/-- One entry of the `noteEvents` array built by the part_001 export;
the JS objects are heterogeneous, unused fields default to 0. -/
structure NoteEvt where
  kind : EvKind
  tick : Int
  note : Nat := 0
  velocity : Nat := 0
  lsb : Nat := 0
  msb : Nat := 0
  channel : Nat
deriving DecidableEq

/-- Integer inputs of one circle to the part_001 export: results of the
source's float computations (rounded start and duration ticks, nearest
MIDI note, 14-bit bend split), see the header note. -/
structure CircleTicks where
  startTick : Int
  durationTicks : Int
  velocity : Nat
  note : Nat
  lsb : Nat
  msb : Nat
deriving DecidableEq

/-- `midiChannelManager.channelPool` (channel 9 reserved for drums). -/
def channelPool : List Nat :=
  [0, 1, 2, 3, 4, 5, 6, 7, 8, 10, 11, 12, 13, 14, 15]

/-- The `circlesToExport.forEach` of the part_001 export: drop circles
with negative start tick, clamp velocity (`max(1, min(127, v || 100))`),
assign the next round-robin pool channel, and push a bend, an on and an
off event.  The channel index only advances for surviving circles, as in
the source. -/
def exportNoteEventsGo : List CircleTicks → Nat → List NoteEvt
  | [], _ => []
  | c :: cs, idx =>
    if c.startTick < 0 then exportNoteEventsGo cs idx
    else
      let velocity := max 1 (min 127 (if c.velocity = 0 then 100 else c.velocity))
      let channel := channelPool.getD idx 0
      ({ kind := .bend, tick := c.startTick, lsb := c.lsb, msb := c.msb, channel := channel } : NoteEvt)
        :: ({ kind := .on, tick := c.startTick, note := c.note, velocity := velocity, channel := channel } : NoteEvt)
        :: ({ kind := .off, tick := c.startTick + c.durationTicks, note := c.note, velocity := 0, channel := channel } : NoteEvt)
        :: exportNoteEventsGo cs ((idx + 1) % channelPool.length)

/-- The part_001 `noteEvents` list (channel index starts at 0). -/
def exportNoteEvents (cs : List CircleTicks) : List NoteEvt :=
  exportNoteEventsGo cs 0

/-- `typeOrder = \x7b bend: 0, on: 1, off: 2 \x7d` of the part_001 sort. -/
def typeOrder : EvKind → Nat
  | .bend => 0
  | .on => 1
  | .off => 2

/-- JS `n || 99` on a priority value: 0 is falsy, so it yields 99. -/
def jsOr99 (n : Nat) : Nat :=
  if n = 0 then 99 else n

/-- The part_001 comparator: tick difference, ties by
`(typeOrder[a.type] || 99) - (typeOrder[b.type] || 99)`.  The bend
priority `typeOrder['bend'] = 0` is falsy in JS, so the `|| 99`
fallback gives bends the effective priority 99 — after note-ons (1)
and note-offs (2) — contrary to the adjacent source comment. -/
def cmpBend (a b : NoteEvt) : Int :=
  if a.tick ≠ b.tick then a.tick - b.tick
  else (jsOr99 (typeOrder a.kind) : Int) - (jsOr99 (typeOrder b.kind) : Int)

/-- JS `Array.prototype.sort` with the part_001 comparator, modelled by
stable insertion sort on the non-strict comparator relation (see the
header note). -/
def jsSortBend (l : List NoteEvt) : List NoteEvt :=
  List.insertionSort (fun a b => cmpBend a b ≤ 0) l

/-- Set-Tempo bytes pushed at the head of the part_001/part_000 track:
delta 0, `FF 51 03`, 3-byte big-endian `round(60000000 / tempo)`.
`jsRound` below models `Math.round` exactly on rationals. -/
def jsRound (q : ℚ) : Int :=
  ⌊q + 1 / 2⌋

/-- The Set-Tempo event bytes (tempo is the caller's BPM). -/
def setTempoBytes (tempo : ℚ) : List Nat :=
  let mpqn := (jsRound (60000000 / tempo)).toNat
  [0, 0xFF, 0x51, 0x03, mpqn >>> 16 &&& 255, mpqn >>> 8 &&& 255, mpqn &&& 255]

/-- The per-channel RPN pitch-bend-range setup bytes of the part_001
export (six controller messages per pooled channel, all at delta 0,
with PITCH_BEND_RANGE_SEMITONES = 2). -/
def rpnSetupBytes : List Nat :=
  channelPool.flatMap fun ch =>
    [0, 0xB0 ||| ch, 101, 0] ++ [0, 0xB0 ||| ch, 100, 0] ++
    [0, 0xB0 ||| ch, 6, 2] ++ [0, 0xB0 ||| ch, 38, 0] ++
    [0, 0xB0 ||| ch, 101, 127] ++ [0, 0xB0 ||| ch, 100, 127]

/-- Status and data bytes of one sorted event (part_001 emission). -/
def emitEventBytes (e : NoteEvt) : List Nat :=
  match e.kind with
  | .on => [0x90 ||| e.channel, e.note, e.velocity]
  | .off => [0x80 ||| e.channel, e.note, e.velocity]
  | .bend => [0xE0 ||| e.channel, e.lsb, e.msb]

/-- The `noteEvents.forEach` emission loop: VLQ of `tick - lastTick`,
then the event bytes, tracking `lastTick`. -/
def emitLoop : List NoteEvt → Int → List Nat
  | [], _ => []
  | e :: rest, lastTick =>
    writeVariableLength (e.tick - lastTick) ++ emitEventBytes e ++ emitLoop rest e.tick

/-- The delta-time arguments the emission loop passes to
`writeVariableLength`, in order. -/
def emitDeltas : List NoteEvt → Int → List Int
  | [], _ => []
  | e :: rest, lastTick => (e.tick - lastTick) :: emitDeltas rest e.tick

/-- All arguments the part_001 export passes to `writeVariableLength`:
the per-event deltas plus the final delta 0 of the End-of-Track event. -/
def writerArgs (sorted : List NoteEvt) : List Int :=
  emitDeltas sorted 0 ++ [0]

/-- `trackBytes` of the part_001 export: tempo, RPN setup, sorted
events, End-of-Track (`VLQ 0, FF 2F 00`). -/
def trackBytesOf (sorted : List NoteEvt) (tempo : ℚ) : List Nat :=
  setTempoBytes tempo ++ rpnSetupBytes ++ emitLoop sorted 0 ++
    writeVariableLength 0 ++ [0xFF, 0x2F, 0x00]

/-- `TICKS_PER_BEAT` of the part_001 export. -/
def ticksPerBeatConst : Nat := 480

/-- The part_001 `exportToMidiFile` byte stream: `none` when the built
event list is empty (the source alerts and writes nothing), otherwise
header chunk (MThd, length 6, format 0, 1 track, division 480), track
chunk header and track bytes. -/
def exportToMidiFile (circles : List CircleTicks) (tempo : ℚ) : Option (List Nat) :=
  let evs := exportNoteEvents circles
  if evs = [] then none
  else
    let sorted := jsSortBend evs
    let tb := trackBytesOf sorted tempo
    some ((mthdTag ++ write32 6 ++ write16 0 ++ write16 1 ++ write16 ticksPerBeatConst)
      ++ (mtrkTag ++ write32 tb.length ++ tb))

/-- Integer inputs of one circle to the part_000 export (same reading of
the float-derived fields as `CircleTicks`). -/
structure CircleTicks0 where
  startTick : Int
  durationTicks : Int
  velocity : Nat
  note : Nat
deriving DecidableEq

/-- The `circlesToExport.forEach` of the part_000 export: keep circles
with non-negative start tick, clamp velocity, push an on and an off
event, all on channel 0 and without bend events. -/
def exportNoteEvents0 : List CircleTicks0 → List NoteEvt
  | [] => []
  | c :: cs =>
    if c.startTick < 0 then exportNoteEvents0 cs
    else
      let velocity := max 1 (min 127 (if c.velocity = 0 then 100 else c.velocity))
      ({ kind := .on, tick := c.startTick, note := c.note, velocity := velocity, channel := 0 } : NoteEvt)
        :: ({ kind := .off, tick := c.startTick + c.durationTicks, note := c.note, velocity := 0, channel := 0 } : NoteEvt)
        :: exportNoteEvents0 cs

/-- JS sort with the part_000 comparator `(a, b) => a.tick - b.tick`
(tick only, no kind tiebreak), modelled by stable insertion sort. -/
def jsSort0 (l : List NoteEvt) : List NoteEvt :=
  List.insertionSort (fun a b => a.tick - b.tick ≤ 0) l

/-- The ordering property claimed for the emitted event list: ticks
ascending, with ties respecting the kind priority bend, on, off. -/
def kindPriorityRespected (l : List NoteEvt) : Prop :=
  l.Pairwise fun a b => a.tick < b.tick ∨ (a.tick = b.tick ∧ typeOrder a.kind ≤ typeOrder b.kind)

instance (l : List NoteEvt) : Decidable (kindPriorityRespected l) :=
  inferInstanceAs (Decidable (List.Pairwise _ l))

/-- The ordering the part_001 comparator actually enforces: ticks
ascending, ties respecting the effective priority `typeOrder _ || 99`,
i.e. Note-On (1) before Note-Off (2) before Pitch-Bend (99). -/
def sortedByTickAndEffPriority (l : List NoteEvt) : Prop :=
  l.Pairwise fun a b =>
    a.tick < b.tick ∨ (a.tick = b.tick ∧ jsOr99 (typeOrder a.kind) ≤ jsOr99 (typeOrder b.kind))

/-- Number of 7-bit groups of a non-negative VLQ value (1 for 0). -/
def vlqGroups (n : Nat) : Nat :=
  if n < 128 then 1 else vlqGroups (n / 128) + 1
decreasing_by
  exact Nat.div_lt_self (by omega) (by norm_num)

/-- High (continuation-marked) bytes of the VLQ encoding of `m`,
most significant group first; `[]` for 0.  `writeVariableLength` of a
non-negative value is exactly these bytes followed by the low group. -/
def wvlHigh : Nat → List Nat
  | 0 => []
  | m + 1 => wvlHigh ((m + 1) / 128) ++ [(m + 1) % 128 + 128]
decreasing_by
  exact Nat.div_lt_self (by omega) (by norm_num)

/-- The condition of the `_pushEvent` backward scan: a still-open
note-on with the channel and note of the incoming note-off data. -/
def openMatch (e : RawEvent) (d : EvData) : Prop :=
  e.type = 9 ∧ e.channel = d.channel ∧ e.note = d.note ∧ e.duration = none

instance (e : RawEvent) (d : EvData) : Decidable (openMatch e d) :=
  inferInstanceAs (Decidable (e.type = 9 ∧ e.channel = d.channel ∧ e.note = d.note ∧ e.duration = none))

/-! Helper lemmas. -/

/-- A byte in [128, 256) has the continuation bit set. -/
theorem land128_ne {b : Nat} (h1 : 128 ≤ b) (h2 : b < 256) : b &&& 128 ≠ 0 := by
  have h : b &&& 2 ^ 7 = (b.testBit 7).toNat * 2 ^ 7 := Nat.and_two_pow b 7
  have ht : b.testBit 7 = true := by
    rw [Nat.testBit_to_div_mod]
    simp only [decide_eq_true_eq]
    norm_num
    omega
  rw [ht] at h
  norm_num at h
  omega

/-- A byte below 128 has the continuation bit clear. -/
theorem land128_eq {b : Nat} (h : b < 128) : b &&& 128 = 0 := by
  have heq : b &&& 2 ^ 7 = (b.testBit 7).toNat * 2 ^ 7 := Nat.and_two_pow b 7
  have ht : b.testBit 7 = false := by
    rw [Nat.testBit_to_div_mod]
    simp only [decide_eq_false_iff_not]
    norm_num
    omega
  rw [ht] at heq
  norm_num at heq
  omega

/-- The JS loop of the VLQ writer on a non-negative value prepends
exactly the continuation-marked high groups. -/
theorem wvlGo_ofNat (k : Nat) : ∀ buf, wvlGo (k : Int) buf = wvlHigh k ++ buf := by
  induction k using Nat.strong_induction_on with
  | _ k ih =>
    intro buf
    match k with
    | 0 =>
      rw [wvlGo, wvlHigh]
      norm_num
    | m + 1 =>
      rw [wvlGo]
      have hpos : (0 : Int) < ((m + 1 : Nat) : Int) := by positivity
      rw [if_pos hpos]
      have hfd : ((m + 1 : Nat) : Int).fdiv 128 = (((m + 1) / 128 : Nat) : Int) := by
        show (Int.ofNat (m + 1)).fdiv (Int.ofNat 128) = Int.ofNat ((m + 1) / 128)
        exact (Int.ofNat_fdiv (m + 1) 128).symm
      have hem : (((m + 1 : Nat) : Int) % 128).toNat = (m + 1) % 128 := by
        have h1 : ((m + 1 : Nat) : Int) % (128 : Int) = (((m + 1) % 128 : Nat) : Int) := by
          push_cast
          ring
        rw [h1, Int.toNat_natCast]
      rw [hfd, hem, ih ((m + 1) / 128) (Nat.div_lt_self (by omega) (by norm_num))]
      rw [wvlHigh]
      simp

/-- `writeVariableLength` of a non-negative value: high groups then the
low 7-bit group. -/
theorem writeVariableLength_ofNat (n : Nat) :
    writeVariableLength (n : Int) = wvlHigh (n / 128) ++ [n % 128] := by
  rw [writeVariableLength]
  have hfd : ((n : Nat) : Int).fdiv 128 = ((n / 128 : Nat) : Int) := by
    show (Int.ofNat n).fdiv (Int.ofNat 128) = Int.ofNat (n / 128)
    exact (Int.ofNat_fdiv n 128).symm
  have hem : (((n : Nat) : Int) % 128).toNat = n % 128 := by
    have h1 : ((n : Nat) : Int) % (128 : Int) = ((n % 128 : Nat) : Int) := by
      push_cast
      ring
    rw [h1, Int.toNat_natCast]
  rw [hfd, hem, wvlGo_ofNat]

/-- Every high group byte lies in [128, 256). -/
theorem wvlHigh_bytes (m : Nat) : ∀ b ∈ wvlHigh m, 128 ≤ b ∧ b < 256 := by
  induction m using Nat.strong_induction_on with
  | _ m ih =>
    match m with
    | 0 =>
      intro b hb
      simp [wvlHigh] at hb
    | k + 1 =>
      intro b hb
      rw [wvlHigh] at hb
      rcases List.mem_append.1 hb with h | h
      · exact ih ((k + 1) / 128) (Nat.div_lt_self (by omega) (by norm_num)) b h
      · have hbv : b = (k + 1) % 128 + 128 := by simpa using h
        have hm : (k + 1) % 128 < 128 := Nat.mod_lt _ (by norm_num)
        omega

/-- Group count of the encoding: one low group plus the high groups. -/
theorem vlqGroups_eq (n : Nat) : vlqGroups n = (wvlHigh (n / 128)).length + 1 := by
  induction n using Nat.strong_induction_on with
  | _ n ih =>
    by_cases h : n < 128
    · rw [vlqGroups, if_pos h]
      have h0 : n / 128 = 0 := Nat.div_eq_of_lt h
      rw [h0, wvlHigh]
      simp
    · have hd : n / 128 < n := Nat.div_lt_self (by omega) (by norm_num)
      have h1 : n / 128 ≠ 0 := by omega
      rw [vlqGroups, if_neg h, ih (n / 128) hd]
      obtain ⟨k, hk⟩ := Nat.exists_eq_succ_of_ne_zero h1
      rw [hk, wvlHigh]
      simp

/-- Reading the high groups of `m` from the front of a buffer folds them
into the accumulator (no 32-bit wrap below 2^32) and consumes exactly
their number of bytes. -/
theorem readVLQFrom_wvlHigh (m : Nat) : ∀ (acc : Nat) (rest : List Nat),
    acc * 128 ^ (wvlHigh m).length + m < 2 ^ 32 →
    readVLQFrom (wvlHigh m ++ rest) acc
      = ((readVLQFrom rest (acc * 128 ^ (wvlHigh m).length + m)).1,
         (readVLQFrom rest (acc * 128 ^ (wvlHigh m).length + m)).2 + (wvlHigh m).length) := by
  induction m using Nat.strong_induction_on with
  | _ m ih =>
    intro acc rest hbound
    match m with
    | 0 =>
      rw [wvlHigh]
      simp
    | k + 1 =>
      have hdiv : (k + 1) / 128 < k + 1 := Nat.div_lt_self (by omega) (by norm_num)
      have hrlt : (k + 1) % 128 < 128 := Nat.mod_lt _ (by norm_num)
      have hqr : (k + 1) / 128 * 128 + (k + 1) % 128 = k + 1 := by omega
      have hlen : (wvlHigh (k + 1)).length = (wvlHigh ((k + 1) / 128)).length + 1 := by
        rw [wvlHigh]
        simp
      have hX : (acc * 128 ^ (wvlHigh ((k + 1) / 128)).length + (k + 1) / 128) * 128 + (k + 1) % 128
          = acc * 128 ^ ((wvlHigh ((k + 1) / 128)).length + 1) + (k + 1) := by
        rw [pow_succ]
        nlinarith [hqr]
      have hb128 : (acc * 128 ^ (wvlHigh ((k + 1) / 128)).length + (k + 1) / 128) * 128 < 2 ^ 32 := by
        apply lt_of_le_of_lt (Nat.le_add_right _ ((k + 1) % 128))
        rw [hX, ← hlen]
        exact hbound
      have hbq : acc * 128 ^ (wvlHigh ((k + 1) / 128)).length + (k + 1) / 128 < 2 ^ 32 := by
        apply lt_of_le_of_lt _ hb128
        exact Nat.le_mul_of_pos_right _ (by norm_num)
      have hcons : wvlHigh (k + 1) ++ rest
          = wvlHigh ((k + 1) / 128) ++ ((k + 1) % 128 + 128) :: rest := by
        rw [wvlHigh]
        simp
      rw [hcons, ih ((k + 1) / 128) hdiv acc (((k + 1) % 128 + 128) :: rest) hbq]
      have hcont : ((k + 1) % 128 + 128) &&& 128 ≠ 0 := land128_ne (by omega) (by omega)
      have hacc : jsShl7 (acc * 128 ^ (wvlHigh ((k + 1) / 128)).length + (k + 1) / 128)
            + ((k + 1) % 128 + 128) % 128
          = acc * 128 ^ (wvlHigh (k + 1)).length + (k + 1) := by
        rw [jsShl7, hlen]
        have hmod : ((k + 1) % 128 + 128) % 128 = (k + 1) % 128 := by omega
        rw [hmod, Nat.mod_eq_of_lt hb128]
        exact hX
      rw [readVLQFrom]
      simp only [if_pos hcont]
      rw [hacc, hlen]
      simp only [Prod.mk.injEq]
      exact ⟨trivial, by omega⟩

/-- Claim C4: for every non-negative integer up to 2^28-1, reading back
the writer's bytes yields the value; the encoding is exactly
`vlqGroups n` bytes, continuation bit set on all bytes but the last and
clear on the last; and 0 encodes as the single byte 0x00. -/
theorem vlq_writer_reader_roundtrip (n : Nat) (h : n ≤ 2 ^ 28 - 1) :
    readVLQFrom (writeVariableLength (n : Int)) 0 = (n, vlqGroups n)
    ∧ (writeVariableLength (n : Int)).length = vlqGroups n
    ∧ (∀ b ∈ (writeVariableLength (n : Int)).dropLast, b &&& 128 ≠ 0)
    ∧ (writeVariableLength (n : Int)).getLast? = some (n % 128)
    ∧ n % 128 &&& 128 = 0
    ∧ writeVariableLength (0 : Int) = [0] := by
  have hw := writeVariableLength_ofNat n
  have hmodlt : n % 128 < 128 := Nat.mod_lt _ (by norm_num)
  have hdivle : n / 128 ≤ n := Nat.div_le_self n 128
  refine ⟨?_, ?_, ?_, ?_, ?_, ?_⟩
  · rw [hw]
    have hb : (0 : Nat) * 128 ^ (wvlHigh (n / 128)).length + n / 128 < 2 ^ 32 := by
      simp only [Nat.zero_mul, Nat.zero_add]
      omega
    rw [readVLQFrom_wvlHigh (n / 128) 0 [n % 128] hb]
    simp only [Nat.zero_mul, Nat.zero_add]
    rw [readVLQFrom]
    rw [if_neg (not_ne_iff.mpr (land128_eq hmodlt))]
    have hshl : jsShl7 (n / 128) = n / 128 * 128 := by
      rw [jsShl7]
      apply Nat.mod_eq_of_lt
      have : n / 128 * 128 ≤ n := Nat.div_mul_le_self n 128
      omega
    simp only [hshl]
    have hv : n / 128 * 128 + n % 128 % 128 = n := by omega
    rw [hv, vlqGroups_eq]
    simp only [Prod.mk.injEq]
    exact ⟨trivial, by omega⟩
  · rw [hw, vlqGroups_eq]
    simp
  · rw [hw]
    intro b hb
    rw [List.dropLast_concat] at hb
    obtain ⟨h1, h2⟩ := wvlHigh_bytes (n / 128) b hb
    exact land128_ne h1 h2
  · rw [hw]
    exact List.getLast?_concat _
  · exact land128_eq hmodlt
  · have h0 := writeVariableLength_ofNat 0
    simp only [Nat.cast_zero] at h0
    rw [h0]
    norm_num
    rw [wvlHigh]

/-- Claim C4 witness at n = 300 (a two-group value). -/
theorem vlq_writer_reader_roundtrip_witness :
    readVLQFrom (writeVariableLength ((300 : Nat) : Int)) 0 = (300, vlqGroups 300) :=
  (vlq_writer_reader_roundtrip 300 (by norm_num)).1

/-- Claim C5, amended: the reader enforces no length cap.  Any run of
continuation-marked bytes, however long, followed by one terminating
byte is consumed in full (accumulating through the 32-bit shift), and
no error of any kind is raised. -/
theorem readVLQFrom_consumes_full_run (bs : List Nat) (n acc : Nat)
    (hb : ∀ b ∈ bs, 128 ≤ b ∧ b < 256) (hn : n < 128) :
    (readVLQFrom (bs ++ [n]) acc).2 = bs.length + 1 := by
  induction bs generalizing acc with
  | nil =>
    simp only [List.nil_append]
    rw [readVLQFrom]
    rw [if_neg (not_ne_iff.mpr (land128_eq hn))]
    simp
  | cons b bs ih =>
    obtain ⟨h1, h2⟩ := hb b (List.mem_cons_self b bs)
    rw [List.cons_append, readVLQFrom]
    simp only [if_pos (land128_ne h1 h2)]
    rw [ih _ (fun x hx => hb x (List.mem_cons_of_mem b hx))]
    simp

/-- Claim C5 witness: a five-byte run is consumed whole. -/
theorem readVLQFrom_consumes_full_run_witness :
    (readVLQFrom ([0x81, 0x80, 0x80, 0x80] ++ [0x00]) 0).2 = 4 + 1 := by
  have h := readVLQFrom_consumes_full_run [0x81, 0x80, 0x80, 0x80] 0 0
    (by decide) (by decide)
  simpa using h

/-- Claim C5 counterexample: a complete file whose track begins with a
five-byte (four continuation bytes) delta-time VLQ decodes successfully
to a note-on at the accumulated tick 2^28 — no MalformedVLQ or other
error occurs. -/
theorem decode_pathological_vlq_succeeds :
    decodeEvents ([77, 84, 104, 100, 0, 0, 0, 6, 0, 0, 0, 1, 1, 224]
        ++ [77, 84, 114, 107] ++ [0, 0, 0, 8]
        ++ [0x81, 0x80, 0x80, 0x80, 0x00, 0x90, 60, 100])
      = some [evOf 268435456 9 ⟨0, some 60, some 100, none, none, none⟩] := by
  decide

/-- Claim C1 (code bug evaluation): decoding the event data bytes
[60, 0] (Note-On of note 60 with velocity 0, followed in the buffer by
the bytes 10 and 64), `_parseNoteOn` reaches the velocity-0 branch and
calls `_parseNoteOff`, which ignores the note and velocity passed to it
and reads two further bytes: the decoder consumes four data bytes and
records a Note-Off for note 10 with velocity 64 — not a Note-Off for
note 60 after exactly two data bytes as the claim states. -/
theorem parseNoteOn_velocity_zero_rereads :
    (parseNoteOn (initState [60, 0, 10, 64]) 0 0).off = 4
    ∧ (parseNoteOn (initState [60, 0, 10, 64]) 0 0).events
      = [evOf 0 8 ⟨0, some 10, some 64, none, none, none⟩] := by
  decide

/-- Claim C6: the stream [delta 0, 0x90, 60, 100, delta 5, 61, 100]
(second event omits its status byte) decodes under running status to two
Note-On events (type 9), both on channel 0, with notes 60 and 61. -/
theorem running_status_reuses_previous_status :
    decodeEvents ([77, 84, 104, 100, 0, 0, 0, 6, 0, 0, 0, 1, 1, 224]
        ++ [77, 84, 114, 107] ++ [0, 0, 0, 7]
        ++ [0, 0x90, 60, 100, 5, 61, 100])
      = some [evOf 0 9 ⟨0, some 60, some 100, none, none, none⟩,
              evOf 5 9 ⟨0, some 61, some 100, none, none, none⟩] := by
  decide

/-- Claim C7: a buffer shorter than 18 bytes, or one whose first four
bytes are not the MThd tag, fails the decode with the invalid-format
error before any parsing; the error result carries no events, tempo
entries or header fields. -/
theorem decode_rejects_invalid_format (data : List Nat)
    (h : data.length < 18 ∨ data.take 4 ≠ mthdTag) :
    decode data = .error "MidiParser: Wrong MIDI file format." := by
  unfold decode decodeHeaderPhase
  rw [if_pos h]

/-- Claim C7 witness: the empty buffer is rejected. -/
theorem decode_rejects_invalid_format_witness :
    decode [] = .error "MidiParser: Wrong MIDI file format." :=
  decode_rejects_invalid_format [] (Or.inl (by decide))

/-- Claim C2 counterexample: a Time Signature meta event (type 0x58)
declaring payload length 5 advances the cursor by its four fixed field
reads only — the cursor ends at 6, not at 2 + 5 = 7 as the claim
requires for every meta event. -/
theorem parseMetaEvent_declared_length_counterexample :
    (parseMetaEvent (initState [0x58, 0x05, 1, 2, 3, 4, 5, 99]) 0).off = 6
    ∧ (readVLQFrom ((initState [0x58, 0x05, 1, 2, 3, 4, 5, 99]).data.drop 1) 0).1 = 5
    ∧ (parseMetaEvent (initState [0x58, 0x05, 1, 2, 3, 4, 5, 99]) 0).off
        ≠ 0 + 1 + (readVLQFrom ((initState [0x58, 0x05, 1, 2, 3, 4, 5, 99]).data.drop 1) 0).2
            + (readVLQFrom ((initState [0x58, 0x05, 1, 2, 3, 4, 5, 99]).data.drop 1) 0).1 := by
  decide

/-- A one-byte read returns the byte under the cursor. -/
theorem readNumberV_one (data : List Nat) (off : Nat) :
    readNumberV data off 1 = byteAt data off := by
  simp [readNumberV, List.range_succ]

/-- Cursor characterization of `_parseMetaEvent`: after the type byte
and the length VLQ, the cursor advances by the declared length for all
meta types except the four fixed-field ones (0x2F, 0x54, 0x58, 0x59),
which advance 0, 5, 4 and 2 bytes respectively. -/
theorem parseMetaEvent_off (s : PState) (tick : Nat) :
    (parseMetaEvent s tick).off
      = s.off + 1 + (readVLQFrom (s.data.drop (s.off + 1)) 0).2
        + (if byteAt s.data s.off = 0x2F then 0
           else if byteAt s.data s.off = 0x54 then 5
           else if byteAt s.data s.off = 0x58 then 4
           else if byteAt s.data s.off = 0x59 then 2
           else (readVLQFrom (s.data.drop (s.off + 1)) 0).1) := by
  have hm : readNumberV s.data s.off 1 = byteAt s.data s.off := readNumberV_one _ _
  unfold parseMetaEvent
  simp only [readNumber, readVLQ, readStringBytes, hm]
  simp only [apply_ite PState.off]
  generalize (readVLQFrom (List.drop (s.off + 1) s.data) 0).2 = c2
  generalize (readVLQFrom (List.drop (s.off + 1) s.data) 0).1 = c1
  generalize byteAt s.data s.off = b
  by_cases h0 : b = 0
  · simp [h0]
  by_cases h1 : b = 1
  · simp [h0, h1]
  by_cases h2 : b = 2
  · simp [h0, h1, h2]
  by_cases h3 : b = 3
  · simp [h0, h1, h2, h3]
  by_cases h4 : b = 4
  · simp [h0, h1, h2, h3, h4]
  by_cases h5 : b = 5
  · simp [h0, h1, h2, h3, h4, h5]
  by_cases h6 : b = 6
  · simp [h0, h1, h2, h3, h4, h5, h6]
  by_cases h7 : b = 7
  · simp [h0, h1, h2, h3, h4, h5, h6, h7]
  by_cases h8 : b = 32
  · simp [h0, h1, h2, h3, h4, h5, h6, h7, h8]
  by_cases h9 : b = 47
  · simp [h0, h1, h2, h3, h4, h5, h6, h7, h8, h9]
  by_cases h10 : b = 81
  · simp [h0, h1, h2, h3, h4, h5, h6, h7, h8, h9, h10]
  by_cases h11 : b = 84
  · simp [h0, h1, h2, h3, h4, h5, h6, h7, h8, h9, h10, h11]
  by_cases h12 : b = 88
  · simp [h0, h1, h2, h3, h4, h5, h6, h7, h8, h9, h10, h11, h12]
  by_cases h13 : b = 89
  · simp [h0, h1, h2, h3, h4, h5, h6, h7, h8, h9, h10, h11, h12, h13]
  by_cases h14 : b = 127
  · simp [h0, h1, h2, h3, h4, h5, h6, h7, h8, h9, h10, h11, h12, h13, h14]
  simp [h0, h1, h2, h3, h4, h5, h6, h7, h8, h9, h10, h11, h12, h13, h14]

/-- Claim C2, amended: after the meta type byte and the length VLQ areread, the cursor advances by exactly the declared payload length L for
every meta type except the four fixed-field ones; End-of-Track (0x2F)
advances 0 bytes, SMPTE Offset (0x54) 5 bytes, Time Signature (0x58)
4 bytes and Key Signature (0x59) 2 bytes, regardless of L — equal to L
only when L is the standard length of that type. -/
theorem parseMetaEvent_cursor_advance (s : PState) (tick : Nat) :
    (byteAt s.data s.off ≠ 0x2F → byteAt s.data s.off ≠ 0x54 →
        byteAt s.data s.off ≠ 0x58 → byteAt s.data s.off ≠ 0x59 →
        (parseMetaEvent s tick).off
          = s.off + 1 + (readVLQFrom (s.data.drop (s.off + 1)) 0).2
              + (readVLQFrom (s.data.drop (s.off + 1)) 0).1)
    ∧ (byteAt s.data s.off = 0x2F →
        (parseMetaEvent s tick).off
          = s.off + 1 + (readVLQFrom (s.data.drop (s.off + 1)) 0).2)
    ∧ (byteAt s.data s.off = 0x54 →
        (parseMetaEvent s tick).off
          = s.off + 1 + (readVLQFrom (s.data.drop (s.off + 1)) 0).2 + 5)
    ∧ (byteAt s.data s.off = 0x58 →
        (parseMetaEvent s tick).off
          = s.off + 1 + (readVLQFrom (s.data.drop (s.off + 1)) 0).2 + 4)
    ∧ (byteAt s.data s.off = 0x59 →
        (parseMetaEvent s tick).off
          = s.off + 1 + (readVLQFrom (s.data.drop (s.off + 1)) 0).2 + 2) := by
  have hoff := parseMetaEvent_off s tick
  refine ⟨?_, ?_, ?_, ?_, ?_⟩ <;> intros <;> rw [hoff] <;> split_ifs <;> omega

/-- Claim C2 witness: an unrecognized meta type (0x99) with declared
length 3 leaves the cursor at offset 5 = 1 (type) + 1 (length VLQ)
+ 3 (payload). -/
theorem parseMetaEvent_cursor_advance_witness :
    (parseMetaEvent (initState [0x99, 0x03, 7, 8, 9]) 0).off = 5 := by
  have h := (parseMetaEvent_cursor_advance (initState [0x99, 0x03, 7, 8, 9]) 0).1
    (by decide) (by decide) (by decide) (by decide)
  simpa using h

/-- The backward scan returns `none` exactly when no open matching
note-on exists. -/
theorem updateLastOpen_eq_none_iff (tick : Nat) (d : EvData) (l : List RawEvent) :
    updateLastOpen tick d l = none ↔ ∀ e ∈ l, ¬ openMatch e d := by
  induction l with
  | nil => simp [updateLastOpen]
  | cons e rest ih =>
    rw [updateLastOpen]
    cases hrec : updateLastOpen tick d rest with
    | some l' =>
      simp only [hrec]
      constructor
      · intro h
        exact absurd h (by simp)
      · intro h
        have : updateLastOpen tick d rest = none := by
          rw [ih]
          intro x hx
          exact h x (List.mem_cons_of_mem e hx)
        rw [this] at hrec
        exact absurd hrec (by simp)
    | none =>
      simp only [hrec]
      by_cases hm : e.type = 9 ∧ e.channel = d.channel ∧ e.note = d.note ∧ e.duration = none
      · rw [if_pos hm]
        simp only [List.mem_cons]
        constructor
        · intro h
          exact absurd h (by simp)
        · intro h
          exact absurd hm (h e (Or.inl rfl))
      · rw [if_neg hm]
        simp only [List.mem_cons, true_iff]
        intro x hx
        rcases hx with rfl | hx
        · exact hm
        · exact (ih.1 hrec) x hx

/-- The backward scan closes exactly the most recent open match,
leaving every other element in place. -/
theorem updateLastOpen_spec (tick : Nat) (d : EvData) :
    ∀ (l : List RawEvent) (i : Nat) (e : RawEvent),
      l[i]? = some e → openMatch e d →
      (∀ j e', i < j → l[j]? = some e' → ¬ openMatch e' d) →
      updateLastOpen tick d l
        = some (l.set i { e with duration := some ((tick : Int) - (e.tick : Int)) }) := by
  intro l
  induction l with
  | nil =>
    intro i e hi
    simp at hi
  | cons a rest ih =>
    intro i e hi hm hlater
    match i with
    | 0 =>
      simp only [List.getElem?_cons_zero, Option.some.injEq] at hi
      subst hi
      have hnone : updateLastOpen tick d rest = none := by
        rw [updateLastOpen_eq_none_iff]
        intro x hx
        obtain ⟨k, hk⟩ := List.mem_iff_getElem?.1 hx
        exact hlater (k + 1) x (by omega) (by simpa using hk)
      rw [updateLastOpen, hnone]
      dsimp only
      rw [if_pos (show a.type = 9 ∧ a.channel = d.channel ∧ a.note = d.note ∧ a.duration = none from hm)]
      simp
    | i' + 1 =>
      simp only [List.getElem?_cons_succ] at hi
      have hrec : updateLastOpen tick d rest
          = some (rest.set i' { e with duration := some ((tick : Int) - (e.tick : Int)) }) :=
        ih i' e hi hm (fun j e' hj hje => hlater (j + 1) e' (by omega) (by simpa using hje))
      rw [updateLastOpen, hrec]
      simp

/-- Claim C3: a decoded note-off sets `duration = tick - thatTick` on
the most recent still-open note-on with matching channel and note and
appends nothing (first conjunct); with no open match it is appended as
a standalone event and nothing is modified (second conjunct); any other
event type is simply appended with `duration` unset, so a note-on not
matched by a later note-off keeps its duration unset (third conjunct,
`_pushEvent` being the only place the event list changes). -/
theorem pushEvent_duration_pairing (events : List RawEvent) (tick : Nat) (d : EvData) :
    (∀ i e, events[i]? = some e → openMatch e d →
        (∀ j e', i < j → events[j]? = some e' → ¬ openMatch e' d) →
        pushEvent events tick 8 d
          = events.set i { e with duration := some ((tick : Int) - (e.tick : Int)) })
    ∧ ((∀ e ∈ events, ¬ openMatch e d) →
        pushEvent events tick 8 d = events ++ [evOf tick 8 d])
    ∧ (∀ ty, ty ≠ 8 → pushEvent events tick ty d = events ++ [evOf tick ty d]) := by
  refine ⟨?_, ?_, ?_⟩
  · intro i e hi hm hlater
    rw [pushEvent, if_pos rfl, updateLastOpen_spec tick d events i e hi hm hlater]
  · intro hnone
    rw [pushEvent, if_pos rfl, (updateLastOpen_eq_none_iff tick d events).2 hnone]
  · intro ty hty
    rw [pushEvent, if_neg hty]

/-- Claim C3 witness: a note-off at tick 100 closes the open note-on at
tick 0 for the same channel and note, setting duration 100 in place. -/
theorem pushEvent_duration_pairing_witness :
    pushEvent [evOf 0 9 ⟨0, some 60, some 100, none, none, none⟩] 100 8
        ⟨0, some 60, some 0, none, none, none⟩
      = [{ evOf 0 9 ⟨0, some 60, some 100, none, none, none⟩ with duration := some 100 }] := by
  have h := (pushEvent_duration_pairing
      [evOf 0 9 ⟨0, some 60, some 100, none, none, none⟩] 100
      ⟨0, some 60, some 0, none, none, none⟩).1 0
      (evOf 0 9 ⟨0, some 60, some 100, none, none, none⟩) rfl (by decide)
      (fun j e' hj hje => by
        match j with
        | 0 => omega
        | k + 1 => simp at hje)
  simpa using h

set_option maxRecDepth 8000 in
/-- Decoding a buffer that starts with the 14 header bytes the encoder
writes (MThd, length 6, format 0, 1 track, division 480) passes the
guard and recovers exactly those header fields, for any track chunk of
at least 4 bytes after them. -/
theorem decodeHeaderPhase_of_header (rest : List Nat) (h4 : 4 ≤ rest.length) :
    decodeHeaderPhase ([77, 84, 104, 100, 0, 0, 0, 6, 0, 0, 0, 1, 1, 224] ++ rest)
      = .ok { data := [77, 84, 104, 100, 0, 0, 0, 6, 0, 0, 0, 1, 1, 224] ++ rest, off := 14,
              events := [], tempo := [], lastEventType := 0,
              format := 0, totalTracks := 1, ticksPerBeat := 480 } := by
  have hguard : ¬ (([77, 84, 104, 100, 0, 0, 0, 6, 0, 0, 0, 1, 1, 224] ++ rest).length < 18
      ∨ ([77, 84, 104, 100, 0, 0, 0, 6, 0, 0, 0, 1, 1, 224] ++ rest).take 4 ≠ mthdTag) := by
    push_neg
    refine ⟨?_, ?_⟩
    · simp only [List.length_append]
      norm_num
      omega
    · rfl
  have hland : (480 : Nat) &&& 0x8000 = 0 := by decide
  rw [decodeHeaderPhase, if_neg hguard, parseHeader]
  simp only [initState, readStringBytes, readNumber]
  simp [readNumberV, byteAt, List.range_succ, mthdTag, hland]

/-- Claim C8: whenever the part_001 export produces a byte stream, the
decoder guard and header phase on that stream succeed and recover
exactly the header fields the encoder wrote: format 0, track count 1,
ticks per quarter note 480. -/
theorem export_recovers_header (circles : List CircleTicks) (tempo : ℚ) (out : List Nat)
    (h : exportToMidiFile circles tempo = some out) :
    decodeHeaderPhase out
      = .ok { data := out, off := 14, events := [], tempo := [], lastEventType := 0,
              format := 0, totalTracks := 1, ticksPerBeat := 480 } := by
  simp only [exportToMidiFile] at h
  by_cases he : exportNoteEvents circles = []
  · rw [if_pos he] at h
    exact absurd h (by simp)
  · rw [if_neg he] at h
    have hout := (Option.some.inj h).symm
    have hconst : mthdTag ++ write32 6 ++ write16 0 ++ write16 1 ++ write16 ticksPerBeatConst
        = [77, 84, 104, 100, 0, 0, 0, 6, 0, 0, 0, 1, 1, 224] := by decide
    rw [hconst] at hout
    rw [hout]
    apply decodeHeaderPhase_of_header
    simp only [List.length_append]
    have : mtrkTag.length = 4 := by decide
    omega

/-- Claim C8 witness: a one-note export at tempo 120 decodes to header
fields (0, 1, 480). -/
theorem export_recovers_header_witness :
    decodeHeaderPhase ((exportToMidiFile [⟨7, 100, 100, 60, 0, 64⟩] 120).getD [])
      = .ok { data := (exportToMidiFile [⟨7, 100, 100, 60, 0, 64⟩] 120).getD [], off := 14,
              events := [], tempo := [], lastEventType := 0,
              format := 0, totalTracks := 1, ticksPerBeat := 480 } :=
  export_recovers_header [⟨7, 100, 100, 60, 0, 64⟩] 120 _ rfl

/-- The part_001 comparator characterized as a total preorder: at most
zero exactly when the tick is smaller, or the ticks tie and the kind
priority is not larger. -/
theorem cmpBend_le_iff (a b : NoteEvt) :
    cmpBend a b ≤ 0
      ↔ (a.tick < b.tick
          ∨ (a.tick = b.tick ∧ jsOr99 (typeOrder a.kind) ≤ jsOr99 (typeOrder b.kind))) := by
  by_cases h : a.tick = b.tick <;> (simp [cmpBend, h]; try omega)

/-- The comparator relation is total. -/
theorem cmpBend_total : ∀ a b : NoteEvt, cmpBend a b ≤ 0 ∨ cmpBend b a ≤ 0 := by
  intro a b
  rw [cmpBend_le_iff, cmpBend_le_iff]
  omega

/-- The comparator relation is transitive. -/
theorem cmpBend_trans :
    ∀ a b c : NoteEvt, cmpBend a b ≤ 0 → cmpBend b c ≤ 0 → cmpBend a c ≤ 0 := by
  intro a b c
  rw [cmpBend_le_iff, cmpBend_le_iff, cmpBend_le_iff]
  omega

/-- Claim C9, amended (part_001 side): the pitch-bend export emits its
events sorted by tick ascending, but the equal-tick tiebreak is the
comparator's EFFECTIVE priority Note-On (1) before Note-Off (2) before
Pitch-Bend (99) — `typeOrder['bend'] = 0` is falsy, so `|| 99` maps it
to 99.  A note-off therefore never precedes a same-tick note-on, but a
bend lands AFTER the same-tick note-on it shapes: the one-note export
below emits Note-On(tick 0), Pitch-Bend(tick 0), Note-Off(tick 100). -/
theorem export_events_sorted_with_eff_priority :
    (∀ circles : List CircleTicks,
        sortedByTickAndEffPriority (jsSortBend (exportNoteEvents circles)))
    ∧ (jsSortBend (exportNoteEvents [⟨0, 100, 100, 60, 0, 64⟩])).map
          (fun e => (e.tick, e.kind))
        = [(0, EvKind.on), (0, EvKind.bend), (100, EvKind.off)] := by
  refine ⟨?_, by decide⟩
  intro circles
  haveI : IsTotal NoteEvt (fun a b => cmpBend a b ≤ 0) := ⟨cmpBend_total⟩
  haveI : IsTrans NoteEvt (fun a b => cmpBend a b ≤ 0) := ⟨cmpBend_trans⟩
  have hs := List.sorted_insertionSort (fun a b : NoteEvt => cmpBend a b ≤ 0)
    (exportNoteEvents circles)
  exact List.Pairwise.imp (fun hab => (cmpBend_le_iff _ _).1 hab) hs

/-- Claim C9 counterexample (part_000 side): the plain export sorts by
tick only and its stable sort keeps the earlier-pushed note-off of the
first circle before the same-tick note-on of the second circle, so the
emitted track has a note-off (kind order 2) at tick 100 immediately
before a note-on (kind order 1) at tick 100. -/
theorem export0_off_before_same_tick_on :
    ¬ kindPriorityRespected (jsSort0 (exportNoteEvents0 [⟨0, 100, 100, 60⟩, ⟨100, 100, 100, 62⟩]))
    ∧ (jsSort0 (exportNoteEvents0 [⟨0, 100, 100, 60⟩, ⟨100, 100, 100, 62⟩])).map
        (fun e => (e.tick, typeOrder e.kind))
      = [(0, 1), (100, 2), (100, 1), (200, 2)] := by
  decide

/-- Every event the part_001 export builds has a non-negative tick:
survivors of the start-tick filter have `startTick ≥ 0`, and with
non-negative durations the note-off tick `startTick + durationTicks`
is non-negative too. -/
theorem exportNoteEventsGo_tick_nonneg :
    ∀ (cs : List CircleTicks) (idx : Nat),
      (∀ c ∈ cs, 0 ≤ c.durationTicks) →
      ∀ e ∈ exportNoteEventsGo cs idx, 0 ≤ e.tick := by
  intro cs
  induction cs with
  | nil =>
    intro idx h e he
    simp [exportNoteEventsGo] at he
  | cons c cs ih =>
    intro idx h e he
    rw [exportNoteEventsGo] at he
    by_cases hs : c.startTick < 0
    · rw [if_pos hs] at he
      exact ih idx (fun x hx => h x (List.mem_cons_of_mem c hx)) e he
    · rw [if_neg hs] at he
      have hdur : 0 ≤ c.durationTicks := h c (List.mem_cons_self c cs)
      simp only [List.mem_cons] at he
      rcases he with rfl | rfl | rfl | he
      · simpa using by omega
      · simpa using by omega
      · simpa using by omega
      · exact ih _ (fun x hx => h x (List.mem_cons_of_mem c hx)) e he

/-- Deltas of the emission loop are non-negative when the list is
tick-sorted and starts at or after the running tick. -/
theorem emitDeltas_nonneg :
    ∀ (l : List NoteEvt) (last : Int),
      (∀ e ∈ l, last ≤ e.tick) →
      l.Pairwise (fun a b => a.tick ≤ b.tick) →
      ∀ d ∈ emitDeltas l last, 0 ≤ d := by
  intro l
  induction l with
  | nil =>
    intro last h hp d hd
    simp [emitDeltas] at hd
  | cons e rest ih =>
    intro last h hp d hd
    rw [emitDeltas] at hd
    simp only [List.mem_cons] at hd
    rcases hd with rfl | hd
    · have := h e (List.mem_cons_self e rest)
      omega
    · rcases List.pairwise_cons.1 hp with ⟨h1, h2⟩
      exact ih e.tick h1 h2 d hd

/-- Claim C10: provided every note duration is non-negative (the
encoder input contract), every delta-time the part_001 export passes to
`writeVariableLength` — the per-event deltas of the sorted list plus
the final End-of-Track delta 0 — is non-negative: surviving start
ticks are ≥ 0, events are sorted by tick before emission, and the
last-emitted-tick tracker starts at 0. -/
theorem export_writer_args_nonneg (circles : List CircleTicks)
    (h : ∀ c ∈ circles, 0 ≤ c.durationTicks) :
    ∀ d ∈ writerArgs (jsSortBend (exportNoteEvents circles)), 0 ≤ d := by
  intro d hd
  rw [writerArgs] at hd
  rcases List.mem_append.1 hd with hd | hd
  · have hticks : ∀ e ∈ jsSortBend (exportNoteEvents circles), 0 ≤ e.tick := by
      intro e he
      rw [jsSortBend] at he
      exact exportNoteEventsGo_tick_nonneg circles 0 h e ((List.mem_insertionSort _).1 he)
    have hsorted : (jsSortBend (exportNoteEvents circles)).Pairwise
        fun a b => a.tick ≤ b.tick := by
      haveI : IsTotal NoteEvt (fun a b => cmpBend a b ≤ 0) := ⟨cmpBend_total⟩
      haveI : IsTrans NoteEvt (fun a b => cmpBend a b ≤ 0) := ⟨cmpBend_trans⟩
      have hs := List.sorted_insertionSort (fun a b : NoteEvt => cmpBend a b ≤ 0)
        (exportNoteEvents circles)
      exact List.Pairwise.imp
        (fun hab => by
          have hr := (cmpBend_le_iff _ _).1 hab
          omega) hs
    exact emitDeltas_nonneg _ 0 hticks hsorted d hd
  · simp only [List.mem_singleton] at hd
    omega

/-- Claim C10 witness: the first delta of a one-note export starting at
tick 7 is 7 ≥ 0. -/
theorem export_writer_args_nonneg_witness : (0 : Int) ≤ 7 :=
  export_writer_args_nonneg [⟨7, 100, 100, 60, 0, 64⟩] (by decide) 7 (by decide)
